import Mathlib

/-!
Verification of the ETL core of the Harvard Artifacts Explorer
(`src/1app.py`): the paginated fetcher `fetch_artifacts_by_classification`,
the pure reshaper `transform_records`, and the three loaders
`insert_metadata`, `insert_media`, `insert_colors` over a SQLite store.

Modelling conventions:
- A Python value bound into a SQL parameter is a `Val`: NULL, integer,
  real, or text; `Val.pyobj` stands for a Python object the sqlite3
  driver cannot adapt (binding it raises, as in `cur.execute`).
  A missing dictionary key read through `r.get(k)` yields `Val.null`,
  matching Python's `None`.
- The store is a list of rows per table, in insertion order.  The
  metadata table declares `id INTEGER PRIMARY KEY`; `INSERT OR IGNORE`
  is modelled as: skip the row when a row with an equal id is already
  visible (committed rows plus rows inserted earlier in the same call).
  The media and colors tables declare no uniqueness constraint (the
  `FOREIGN KEY` clauses are not enforced by SQLite's defaults), so their
  `INSERT OR IGNORE` never has a conflict to ignore and always appends.
- `with get_connection() as conn:` commits the batch on normal exit and
  rolls the open transaction back when an exception escapes, so a
  loader returns the new committed table on success and the unchanged
  table together with an error on failure.
- The remote endpoint is modelled as the finite sequence of page
  responses it would serve for the given classification and page size:
  page number n receives the response at index n - 1.  A response
  carries the transport status code, the `records` array, and the
  truthiness of `info.next`.
-/

/-- A value bindable (or not) into a SQLite parameter slot. -/
inductive Val where
  | null : Val
  | int (n : Int) : Val
  | real (q : ℚ) : Val
  | text (s : String) : Val
  | pyobj : Val
  deriving DecidableEq, Repr

/-- The sqlite3 driver can bind every adapted value; `pyobj` raises. -/
def Val.storable : Val → Bool
  | .pyobj => false
  | _ => true

/-- One row of `artifact_metadata`, the 12 columns of the CREATE TABLE. -/
structure MetadataRow where
  id : Val
  title : Val
  culture : Val
  period : Val
  century : Val
  medium : Val
  dimensions : Val
  description : Val
  department : Val
  classification : Val
  accessionyear : Val
  accessionmethod : Val
  deriving DecidableEq, Repr

/-- One row of `artifact_media`, the 7 columns of the CREATE TABLE. -/
structure MediaRow where
  objectid : Val
  imagecount : Val
  mediacount : Val
  colorcount : Val
  rank : Val
  datebegin : Val
  dateend : Val
  deriving DecidableEq, Repr

/-- One row of `artifact_colors`, the 6 columns of the CREATE TABLE. -/
structure ColorRow where
  objectid : Val
  color : Val
  spectrum : Val
  hue : Val
  percent : Val
  css3 : Val
  deriving DecidableEq, Repr

/-- All 12 parameters of the metadata INSERT bind without error. -/
def MetadataRow.storable (r : MetadataRow) : Bool :=
  r.id.storable && r.title.storable && r.culture.storable &&
  r.period.storable && r.century.storable && r.medium.storable &&
  r.dimensions.storable && r.description.storable && r.department.storable &&
  r.classification.storable && r.accessionyear.storable &&
  r.accessionmethod.storable

/-- All 7 parameters of the media INSERT bind without error. -/
def MediaRow.storable (r : MediaRow) : Bool :=
  r.objectid.storable && r.imagecount.storable && r.mediacount.storable &&
  r.colorcount.storable && r.rank.storable && r.datebegin.storable &&
  r.dateend.storable

/-- All 6 parameters of the colors INSERT bind without error. -/
def ColorRow.storable (r : ColorRow) : Bool :=
  r.objectid.storable && r.color.storable && r.spectrum.storable &&
  r.hue.storable && r.percent.storable && r.css3.storable

/-- One entry of a raw record's `colors` sub-list. -/
structure ColorEntry where
  color : Val
  spectrum : Val
  hue : Val
  percent : Val
  css3 : Val
  deriving DecidableEq, Repr

/-- One raw JSON record from the endpoint, restricted to the keys the
pipeline reads; a key missing from the JSON object is `Val.null`
(`rec.get(k)` returns `None`), and a missing `colors` key is the empty
list (`rec.get('colors', [])`). -/
structure RawRecord where
  id : Val := .null
  title : Val := .null
  culture : Val := .null
  period : Val := .null
  century : Val := .null
  medium : Val := .null
  dimensions : Val := .null
  description : Val := .null
  department : Val := .null
  classification : Val := .null
  accessionyear : Val := .null
  accessionmethod : Val := .null
  imagecount : Val := .null
  mediacount : Val := .null
  colorcount : Val := .null
  rank : Val := .null
  datebegin : Val := .null
  dateend : Val := .null
  colors : List ColorEntry := []
  deriving DecidableEq, Repr

/-- The metadata dictionary `transform_records` appends for one record. -/
def metadataOf (rec : RawRecord) : MetadataRow :=
  { id := rec.id, title := rec.title, culture := rec.culture,
    period := rec.period, century := rec.century, medium := rec.medium,
    dimensions := rec.dimensions, description := rec.description,
    department := rec.department, classification := rec.classification,
    accessionyear := rec.accessionyear,
    accessionmethod := rec.accessionmethod }

/-- The media dictionary `transform_records` appends for one record;
its `objectid` is read from the record's `id` key. -/
def mediaOf (rec : RawRecord) : MediaRow :=
  { objectid := rec.id, imagecount := rec.imagecount,
    mediacount := rec.mediacount, colorcount := rec.colorcount,
    rank := rec.rank, datebegin := rec.datebegin, dateend := rec.dateend }

/-- The color dictionaries `transform_records` appends for one record:
one per entry of the `colors` sub-list, in sub-list order, each keyed by
the record's `id`. -/
def colorRowsOf (rec : RawRecord) : List ColorRow :=
  rec.colors.map (fun c =>
    { objectid := rec.id, color := c.color, spectrum := c.spectrum,
      hue := c.hue, percent := c.percent, css3 := c.css3 })

/-- `transform_records`: one pass over the input, appending one metadata
row and one media row per record and one color row per color entry, in
input order. -/
def transform_records :
    List RawRecord → List MetadataRow × List MediaRow × List ColorRow
  | [] => ([], [], [])
  | rec :: rest =>
    let out := transform_records rest
    (metadataOf rec :: out.1, mediaOf rec :: out.2.1,
     colorRowsOf rec ++ out.2.2)

/-- One response of the paginated endpoint: the transport status code,
the `records` array (empty when the key is absent), and whether
`info.next` is present and truthy. -/
structure PageResp where
  status : Nat := 200
  records : List RawRecord := []
  next : Bool := false
  deriving DecidableEq, Repr

/-- The `while len(records) < max_records` loop of
`fetch_artifacts_by_classification`, consuming the endpoint's responses
in page order and threading the accumulator; it also counts the page
requests it issues.  Each iteration first tests the loop condition,
then requests the next page, breaks on a non-200 status, extends the
accumulator with the page's records, and breaks when `info.next` is
absent.  An exhausted response list means the modelled endpoint has no
further responses, so no further request is counted. -/
def fetch_loop (max_records : Nat) :
    List PageResp → List RawRecord → List RawRecord × Nat
  | [], acc => (acc, 0)
  | p :: rest, acc =>
    if max_records ≤ acc.length then (acc, 0)
    else if p.status ≠ 200 then (acc, 1)
    else if p.next then
      ((fetch_loop max_records rest (acc ++ p.records)).1,
       (fetch_loop max_records rest (acc ++ p.records)).2 + 1)
    else (acc ++ p.records, 1)

/-- `fetch_artifacts_by_classification`: run the pagination loop from
page 1 with an empty accumulator over the responses the endpoint serves
for the chosen classification and page size, and return
`records[:max_records]`. -/
def fetch_artifacts_by_classification
    (pages : List PageResp) (max_records : Nat) : List RawRecord :=
  (fetch_loop max_records pages []).1.take max_records

/-- The number of page requests a call of the fetcher issues. -/
def fetch_request_count (pages : List PageResp) (max_records : Nat) : Nat :=
  (fetch_loop max_records pages []).2

/-- All records the endpoint can deliver: the `records` arrays of the
successive pages, concatenated up to and including the first page whose
response carries no next-page indicator. -/
def avail_records : List PageResp → List RawRecord
  | [] => []
  | p :: rest => if p.next then p.records ++ avail_records rest else p.records

/-- A store-level error surfaced to the caller (e.g. the sqlite3
InterfaceError raised when a parameter cannot be bound). -/
def SqlError := String
deriving instance DecidableEq, Repr for SqlError

/-- The error `cur.execute` raises on an unbindable parameter. -/
def bindError : SqlError := "InterfaceError: unsupported parameter type"

/-- A row of the metadata table conflicts when a row with an equal id
is already visible in the transaction (`id INTEGER PRIMARY KEY` with
`INSERT OR IGNORE`). -/
def metadataConflict (visible : List MetadataRow) (r : MetadataRow) : Bool :=
  visible.any (fun s => decide (s.id = r.id))

/-- The cursor loop of `insert_metadata`: execute one INSERT OR IGNORE
per record, accumulating the journal of rows inserted in this open
transaction; an unbindable parameter raises and ends the loop. -/
def insert_metadata_loop (tbl : List MetadataRow) :
    List MetadataRow → List MetadataRow →
      List MetadataRow × Option SqlError
  | [], journal => (journal, none)
  | r :: rest, journal =>
    if r.storable = false then (journal, some bindError)
    else if metadataConflict (tbl ++ journal) r then
      insert_metadata_loop tbl rest journal
    else insert_metadata_loop tbl rest (journal ++ [r])

/-- `insert_metadata`: run the cursor loop inside
`with get_connection() as conn:`; on normal exit the batch is committed
as one unit, and an escaping exception rolls the transaction back, so
the committed table is unchanged and the error propagates. -/
def insert_metadata (records : List MetadataRow) (tbl : List MetadataRow) :
    List MetadataRow × Option SqlError :=
  match insert_metadata_loop tbl records [] with
  | (journal, none) => (tbl ++ journal, none)
  | (_, some e) => (tbl, some e)

/-- The cursor loop of `insert_media`.  The SQL says INSERT OR IGNORE,
but `artifact_media` declares no uniqueness constraint, so no conflict
can arise and every bindable row is inserted unconditionally. -/
def insert_media_loop :
    List MediaRow → List MediaRow → List MediaRow × Option SqlError
  | [], journal => (journal, none)
  | r :: rest, journal =>
    if r.storable = false then (journal, some bindError)
    else insert_media_loop rest (journal ++ [r])

/-- `insert_media`: commit the whole batch on success, roll back and
propagate the error on failure. -/
def insert_media (records : List MediaRow) (tbl : List MediaRow) :
    List MediaRow × Option SqlError :=
  match insert_media_loop records [] with
  | (journal, none) => (tbl ++ journal, none)
  | (_, some e) => (tbl, some e)

/-- The cursor loop of `insert_colors`.  As for the media table,
`artifact_colors` declares no uniqueness constraint, so the
INSERT OR IGNORE inserts every bindable row unconditionally. -/
def insert_colors_loop :
    List ColorRow → List ColorRow → List ColorRow × Option SqlError
  | [], journal => (journal, none)
  | r :: rest, journal =>
    if r.storable = false then (journal, some bindError)
    else insert_colors_loop rest (journal ++ [r])

/-- `insert_colors`: commit the whole batch on success, roll back and
propagate the error on failure. -/
def insert_colors (records : List ColorRow) (tbl : List ColorRow) :
    List ColorRow × Option SqlError :=
  match insert_colors_loop records [] with
  | (journal, none) => (tbl ++ journal, none)
  | (_, some e) => (tbl, some e)

/-- The read-back of the round-trip check: `run_query` with
`SELECT * FROM artifact_metadata WHERE id = v`, returning the matching
rows in table order. -/
def run_query_metadata_by_id (tbl : List MetadataRow) (v : Val) :
    List MetadataRow :=
  tbl.filter (fun s => decide (s.id = v))

/-- The metadata table never holds two rows with the same id
(`id INTEGER PRIMARY KEY`). -/
def uniqueIds (tbl : List MetadataRow) : Prop :=
  tbl.Pairwise (fun a b => a.id ≠ b.id)

/-- First color entry of the spec's id-42 scenario record. -/
def redEntry : ColorEntry :=
  { color := .text "Red", spectrum := .text "#spectrum", hue := .text "Red",
    percent := .real (1/2), css3 := .text "#ff0000" }

/-- Second color entry of the spec's id-42 scenario record. -/
def blueEntry : ColorEntry :=
  { color := .text "Blue", spectrum := .text "#spectrum",
    hue := .text "Blue", percent := .real (1/4), css3 := .text "#0000ff" }

/-- The spec's scenario record: id 42 with a two-entry color list. -/
def rec42 : RawRecord := { id := .int 42, colors := [redEntry, blueEntry] }

/-- The color row the transformer produces from `redEntry`. -/
def redRow42 : ColorRow :=
  { objectid := .int 42, color := .text "Red", spectrum := .text "#spectrum",
    hue := .text "Red", percent := .real (1/2), css3 := .text "#ff0000" }

/-- A concrete storable metadata row used in witnesses. -/
def mrow7 : MetadataRow :=
  { id := .int 7, title := .text "Vase", culture := .null, period := .null,
    century := .null, medium := .null, dimensions := .null,
    description := .null, department := .null, classification := .null,
    accessionyear := .int 1999, accessionmethod := .null }

/-- A metadata row with an unbindable field value. -/
def badMeta : MetadataRow := { mrow7 with id := .int 9, title := .pyobj }

/-- A concrete storable media row used in witnesses. -/
def mediaA : MediaRow :=
  { objectid := .int 7, imagecount := .int 1, mediacount := .int 0,
    colorcount := .int 2, rank := .int 10, datebegin := .int 1500,
    dateend := .int 1600 }

/-- A media row with an unbindable field value. -/
def badMedia : MediaRow := { mediaA with rank := .pyobj }

/-- A concrete storable color row used in witnesses. -/
def colorA : ColorRow :=
  { objectid := .int 7, color := .text "Red", spectrum := .text "#s",
    hue := .text "Red", percent := .real (3/4), css3 := .text "#f00" }

/-- A color row with an unbindable field value. -/
def badColor : ColorRow := { colorA with percent := .pyobj }

/-- A minimal raw record with a given integer id, for the witnesses. -/
def wrec (n : Int) : RawRecord := { id := .int n }

/-- A two-page healthy endpoint used in witnesses. -/
def wpages : List PageResp :=
  [{ status := 200, records := [wrec 1, wrec 2], next := true },
   { status := 200, records := [wrec 3], next := false }]

/-- An endpoint whose second page fails with a 503, for the witnesses. -/
def epages : List PageResp :=
  [{ status := 200, records := [wrec 1], next := true },
   { status := 503, records := [], next := false }]

theorem length_colorRowsOf (rec : RawRecord) :
    (colorRowsOf rec).length = rec.colors.length := by
  simp [colorRowsOf]

/-- C1: `transform_records` is total on every input list and returns
exactly the per-record metadata and media rows in input order (lengths
equal to the input length) and the concatenation, in order, of each
record's color rows (total count the sum of per-record color-list
lengths). -/
theorem transform_records_shape (records : List RawRecord) :
    (transform_records records).1 = records.map metadataOf ∧
    (transform_records records).2.1 = records.map mediaOf ∧
    (transform_records records).2.2 = records.flatMap colorRowsOf ∧
    (transform_records records).1.length = records.length ∧
    (transform_records records).2.1.length = records.length ∧
    (transform_records records).2.2.length =
      (records.map (fun r => r.colors.length)).sum := by
  induction records with
  | nil => simp [transform_records]
  | cons rec rest ih =>
    obtain ⟨h1, h2, h3, _, _, h6⟩ := ih
    refine ⟨?_, ?_, ?_, ?_, ?_, ?_⟩ <;>
      simp [transform_records, h1, h2, h3, h6, length_colorRowsOf,
        Function.comp_def]

theorem fetch_loop_take_of_ok (max_records : Nat) :
    ∀ (pages : List PageResp) (acc : List RawRecord),
      (∀ p ∈ pages, p.status = 200) →
      (fetch_loop max_records pages acc).1.take max_records =
        (acc ++ avail_records pages).take max_records := by
  intro pages
  induction pages with
  | nil => intro acc _; simp [fetch_loop, avail_records]
  | cons p rest ih =>
    intro acc hok
    have hp : p.status = 200 := hok p (List.mem_cons_self p rest)
    have hrest : ∀ q ∈ rest, q.status = 200 :=
      fun q hq => hok q (List.mem_cons_of_mem p hq)
    by_cases hlen : max_records ≤ acc.length
    · simp only [fetch_loop, if_pos hlen, avail_records]
      exact (List.take_append_of_le_length hlen).symm
    · by_cases hnext : p.next = true
      · simp only [fetch_loop, if_neg hlen, hp, ne_eq, not_true_eq_false,
          if_false, if_pos hnext, avail_records, hnext, if_true]
        rw [ih (acc ++ p.records) hrest, List.append_assoc]
      · simp only [fetch_loop, if_neg hlen, hp, ne_eq, not_true_eq_false,
          if_false, if_neg hnext, avail_records,
          Bool.not_eq_true _ ▸ hnext]
        simp [hnext]

/-- C2: the fetcher never returns more than `max_records` records, and
when every served page has transport status 200 it returns the first
`max_records` of the records the endpoint can deliver, hence at least
`min total_available max_records` records. -/
theorem fetch_record_bounds (pages : List PageResp) (max_records : Nat) :
    (fetch_artifacts_by_classification pages max_records).length ≤
      max_records ∧
    ((∀ p ∈ pages, p.status = 200) →
      fetch_artifacts_by_classification pages max_records =
        (avail_records pages).take max_records ∧
      min (avail_records pages).length max_records ≤
        (fetch_artifacts_by_classification pages max_records).length) := by
  constructor
  · exact List.length_take_le _ _
  · intro hok
    have h := fetch_loop_take_of_ok max_records pages [] hok
    simp only [List.nil_append] at h
    refine ⟨h, ?_⟩
    unfold fetch_artifacts_by_classification
    rw [h, List.length_take]
    omega

/-- C7: with `max_records = 0` the loop condition `len(records) < 0`
fails at once, so the fetcher returns the empty list and issues no page
request at all. -/
theorem fetch_zero_max_records (pages : List PageResp) :
    fetch_artifacts_by_classification pages 0 = [] ∧
    fetch_request_count pages 0 = 0 := by
  cases pages <;>
    simp [fetch_artifacts_by_classification, fetch_request_count, fetch_loop]

theorem fetch_loop_count_le_length (max_records : Nat) :
    ∀ (pages : List PageResp) (acc : List RawRecord),
      (fetch_loop max_records pages acc).2 ≤ pages.length := by
  intro pages
  induction pages with
  | nil => intro acc; simp [fetch_loop]
  | cons p rest ih =>
    intro acc
    simp only [fetch_loop, List.length_cons]
    split
    · omega
    · split
      · omega
      · split
        · have := ih (acc ++ p.records)
          simp only []
          omega
        · simp

theorem fetch_loop_count_le_stop (max_records : Nat) :
    ∀ (pages : List PageResp) (i : Nat) (acc : List RawRecord)
      (h : i < pages.length),
      (pages.get ⟨i, h⟩).status ≠ 200 ∨ (pages.get ⟨i, h⟩).next = false →
      (fetch_loop max_records pages acc).2 ≤ i + 1 := by
  intro pages
  induction pages with
  | nil => intro i acc h; simp at h
  | cons p rest ih =>
    intro i acc h hstop
    cases i with
    | zero =>
      simp only [List.get] at hstop
      simp only [fetch_loop]
      split
      · omega
      · split
        · omega
        · rcases hstop with hs | hn
          · simp_all
          · simp only [hn, if_false]
            simp
    | succ i =>
      have h2 : i < rest.length := by simpa using h
      simp only [List.get] at hstop
      simp only [fetch_loop]
      split
      · omega
      · split
        · omega
        · split
          · have := ih i (acc ++ p.records) h2 hstop
            simp only []
            omega
          · omega

theorem fetch_loop_count_le_sat (max_records : Nat) :
    ∀ (pages : List PageResp) (k : Nat) (acc : List RawRecord),
      max_records ≤
        acc.length + ((pages.take k).flatMap PageResp.records).length →
      (fetch_loop max_records pages acc).2 ≤ k := by
  intro pages
  induction pages with
  | nil => intro k acc _; simp [fetch_loop]
  | cons p rest ih =>
    intro k acc hsat
    cases k with
    | zero =>
      simp only [List.take_zero, List.flatMap_nil, List.length_nil,
        Nat.add_zero] at hsat
      simp [fetch_loop, if_pos hsat]
    | succ k =>
      simp only [fetch_loop]
      split
      · omega
      · split
        · omega
        · split
          · have hlen : max_records ≤
                (acc ++ p.records).length +
                  ((rest.take k).flatMap PageResp.records).length := by
              simp only [List.take_succ_cons, List.flatMap_cons,
                List.length_append] at hsat ⊢
              omega
            have := ih k (acc ++ p.records) hlen
            simp only []
            omega
          · omega

/-- C5: the pagination loop terminates, and it stops no later than each
of its three stopping conditions demands: it issues at most one request
per response the endpoint has, at most `i + 1` requests when the
response to request `i + 1` has a non-success status or lacks the
next-page indicator, and at most `k` requests when the records of the
first `k` pages already reach `max_records`. -/
theorem fetch_termination (pages : List PageResp) (max_records : Nat) :
    fetch_request_count pages max_records ≤ pages.length ∧
    (∀ (i : Nat) (h : i < pages.length),
      (pages.get ⟨i, h⟩).status ≠ 200 ∨ (pages.get ⟨i, h⟩).next = false →
      fetch_request_count pages max_records ≤ i + 1) ∧
    (∀ k : Nat,
      max_records ≤ ((pages.take k).flatMap PageResp.records).length →
      fetch_request_count pages max_records ≤ k) := by
  refine ⟨fetch_loop_count_le_length max_records pages [], ?_, ?_⟩
  · intro i h hstop
    exact fetch_loop_count_le_stop max_records pages i [] h hstop
  · intro k hk
    apply fetch_loop_count_le_sat max_records pages k []
    simpa using hk

theorem fetch_loop_error_stop (max_records : Nat) :
    ∀ (pages : List PageResp) (i : Nat) (acc : List RawRecord)
      (h : i < pages.length),
      (pages.get ⟨i, h⟩).status ≠ 200 →
      (∀ q ∈ pages.take i, q.status = 200 ∧ q.next = true) →
      acc.length + ((pages.take i).flatMap PageResp.records).length <
        max_records →
      fetch_loop max_records pages acc =
        (acc ++ (pages.take i).flatMap PageResp.records, i + 1) := by
  intro pages
  induction pages with
  | nil => intro i acc h; simp at h
  | cons p rest ih =>
    intro i acc h herr hok hlen
    cases i with
    | zero =>
      simp only [List.get] at herr
      simp only [List.take_zero, List.flatMap_nil, List.length_nil,
        Nat.add_zero] at hlen
      simp only [List.take_zero, List.flatMap_nil, List.append_nil]
      simp only [fetch_loop, if_neg (Nat.not_le_of_lt hlen), herr, ne_eq,
        not_false_eq_true, if_true]
    | succ i =>
      have h2 : i < rest.length := by simpa using h
      have hp := hok p (by simp [List.take_succ_cons])
      have hok2 : ∀ q ∈ rest.take i, q.status = 200 ∧ q.next = true := by
        intro q hq
        exact hok q (by simp [List.take_succ_cons, hq])
      simp only [List.take_succ_cons, List.flatMap_cons,
        List.length_append] at hlen ⊢
      have hacc : ¬ max_records ≤ acc.length := by omega
      simp only [List.get] at herr
      have hrec := ih i (acc ++ p.records) h2 herr hok2
        (by simp only [List.length_append]; omega)
      simp only [fetch_loop, if_neg hacc, hp.1, ne_eq, not_true_eq_false,
        if_false, hp.2, if_true, hrec, List.append_assoc]

/-- C6: when the response to request `i + 1` has a non-success status
and every earlier response succeeded with a next-page indicator (and
the accumulator had not yet reached `max_records`), the fetcher stops
at that page, issues exactly `i + 1` requests, and still returns the
records accumulated from the earlier successful pages, truncated to
`max_records`. -/
theorem fetch_transport_error_partial (pages : List PageResp)
    (i max_records : Nat) (h : i < pages.length)
    (herr : (pages.get ⟨i, h⟩).status ≠ 200)
    (hok : ∀ q ∈ pages.take i, q.status = 200 ∧ q.next = true)
    (hlen : ((pages.take i).flatMap PageResp.records).length < max_records) :
    fetch_request_count pages max_records = i + 1 ∧
    fetch_artifacts_by_classification pages max_records =
      ((pages.take i).flatMap PageResp.records).take max_records := by
  have hrec := fetch_loop_error_stop max_records pages i [] h herr hok
    (by simpa using hlen)
  constructor
  · unfold fetch_request_count
    rw [hrec]
  · unfold fetch_artifacts_by_classification
    rw [hrec]
    simp

theorem filter_id_length_one :
    ∀ (tbl : List MetadataRow) (v : Val), uniqueIds tbl →
      (∃ s ∈ tbl, s.id = v) →
      (run_query_metadata_by_id tbl v).length = 1 := by
  intro tbl
  induction tbl with
  | nil => intro v _ hs; simp at hs
  | cons a t ih =>
    intro v hu hs
    rw [uniqueIds, List.pairwise_cons] at hu
    obtain ⟨ha, ht⟩ := hu
    by_cases hav : a.id = v
    · have hnone : ∀ x ∈ t, ¬ (x.id = v) := by
        intro x hx hxv
        exact ha x hx (hav.trans hxv.symm)
      have hnil : List.filter (fun x => decide (x.id = v)) t = [] :=
        List.filter_eq_nil_iff.mpr (by intro x hx; simpa using hnone x hx)
      simp [run_query_metadata_by_id, hav, hnil]
    · obtain ⟨s, hsmem, hsv⟩ := hs
      rcases List.mem_cons.mp hsmem with rfl | hst
      · exact absurd hsv hav
      · have := ih v ht ⟨s, hst, hsv⟩
        simpa [run_query_metadata_by_id, hav] using this

/-- C3: inserting a metadata row through `insert_metadata` twice leaves
exactly one row with that id in the store: the second insert is
silently skipped with no error and no overwrite, the committed table is
unchanged by it, so metadata is never updated in place. -/
theorem insert_metadata_idempotent (r : MetadataRow)
    (tbl : List MetadataRow) (hr : r.storable = true)
    (hinv : uniqueIds tbl) :
    ∃ t1,
      insert_metadata [r] tbl = (t1, none) ∧
      insert_metadata [r] t1 = (t1, none) ∧
      (run_query_metadata_by_id t1 r.id).length = 1 := by
  by_cases hc : metadataConflict tbl r = true
  · refine ⟨tbl, ?_, ?_, ?_⟩
    · simp [insert_metadata, insert_metadata_loop, hr, hc]
    · simp [insert_metadata, insert_metadata_loop, hr, hc]
    · apply filter_id_length_one tbl r.id hinv
      simpa [metadataConflict] using hc
  · have hfresh : ∀ s ∈ tbl, ¬ (s.id = r.id) := by
      simpa [metadataConflict, List.any_eq_false] using hc
    refine ⟨tbl ++ [r], ?_, ?_, ?_⟩
    · simp [insert_metadata, insert_metadata_loop, hr, hc]
    · have hc2 : metadataConflict (tbl ++ [r]) r = true := by
        simp [metadataConflict]
      simp [insert_metadata, insert_metadata_loop, hr, hc2]
    · have hnil : List.filter (fun x => decide (x.id = r.id)) tbl = [] :=
        List.filter_eq_nil_iff.mpr (by intro x hx; simpa using hfresh x hx)
      simp [run_query_metadata_by_id, List.filter_append, hnil]

/-- C4: the media and colors tables declare no uniqueness constraint,
so `insert_media` and `insert_colors` insert every (bindable) row
unconditionally, and loading the same row twice leaves two more copies
of it in the store than before. -/
theorem insert_media_colors_unconditional (m : MediaRow) (c : ColorRow)
    (tm : List MediaRow) (tc : List ColorRow)
    (hm : m.storable = true) (hc : c.storable = true) :
    insert_media [m] tm = (tm ++ [m], none) ∧
    insert_media [m] (tm ++ [m]) = (tm ++ [m] ++ [m], none) ∧
    (tm ++ [m] ++ [m]).countP (fun x => decide (x = m)) =
      tm.countP (fun x => decide (x = m)) + 2 ∧
    insert_colors [c] tc = (tc ++ [c], none) ∧
    insert_colors [c] (tc ++ [c]) = (tc ++ [c] ++ [c], none) ∧
    (tc ++ [c] ++ [c]).countP (fun x => decide (x = c)) =
      tc.countP (fun x => decide (x = c)) + 2 := by
  refine ⟨?_, ?_, ?_, ?_, ?_, ?_⟩ <;>
    simp [insert_media, insert_media_loop, insert_colors,
      insert_colors_loop, hm, hc, List.countP_append, List.countP_cons]

/-- C8: inserting a metadata row whose id is not yet in the store and
reading it back with the SELECT-by-id query yields exactly that one
row, its twelve fields equal to the inserted values field-for-field
(`MetadataRow` equality is field-wise). -/
theorem insert_metadata_roundtrip (r : MetadataRow)
    (tbl : List MetadataRow) (hr : r.storable = true)
    (hfresh : ∀ s ∈ tbl, ¬ (s.id = r.id)) :
    insert_metadata [r] tbl = (tbl ++ [r], none) ∧
    run_query_metadata_by_id (insert_metadata [r] tbl).1 r.id = [r] := by
  have hc : metadataConflict tbl r = false := by
    simp only [metadataConflict, List.any_eq_false]
    intro s hs
    simpa using hfresh s hs
  constructor
  · simp [insert_metadata, insert_metadata_loop, hr, hc]
  · have hnil : List.filter (fun x => decide (x.id = r.id)) tbl = [] :=
      List.filter_eq_nil_iff.mpr (by intro x hx; simpa using hfresh x hx)
    simp [insert_metadata, insert_metadata_loop, hr, hc,
      run_query_metadata_by_id, List.filter_append, hnil]

theorem insert_metadata_loop_err (tbl : List MetadataRow) :
    ∀ (rest journal : List MetadataRow),
      (∃ r ∈ rest, r.storable = false) →
      (insert_metadata_loop tbl rest journal).2 = some bindError := by
  intro rest
  induction rest with
  | nil => intro journal h; simp at h
  | cons r t ih =>
    intro journal h
    by_cases hr : r.storable = false
    · simp [insert_metadata_loop, hr]
    · have hex : ∃ x ∈ t, x.storable = false := by
        rcases h with ⟨x, hx, hxs⟩
        rcases List.mem_cons.mp hx with rfl | hxt
        · exact absurd hxs hr
        · exact ⟨x, hxt, hxs⟩
      simp only [insert_metadata_loop, if_neg hr]
      split
      · exact ih journal hex
      · exact ih (journal ++ [r]) hex

theorem insert_metadata_loop_ok (tbl : List MetadataRow) :
    ∀ (rest journal : List MetadataRow),
      (∀ r ∈ rest, r.storable = true) →
      (insert_metadata_loop tbl rest journal).2 = none := by
  intro rest
  induction rest with
  | nil => intro journal _; simp [insert_metadata_loop]
  | cons r t ih =>
    intro journal h
    have hr : ¬ (r.storable = false) := by
      simp [h r (List.mem_cons_self r t)]
    have ht : ∀ x ∈ t, x.storable = true :=
      fun x hx => h x (List.mem_cons_of_mem r hx)
    simp only [insert_metadata_loop, if_neg hr]
    split
    · exact ih journal ht
    · exact ih (journal ++ [r]) ht

theorem insert_media_loop_err :
    ∀ (rest journal : List MediaRow),
      (∃ r ∈ rest, r.storable = false) →
      (insert_media_loop rest journal).2 = some bindError := by
  intro rest
  induction rest with
  | nil => intro journal h; simp at h
  | cons r t ih =>
    intro journal h
    by_cases hr : r.storable = false
    · simp [insert_media_loop, hr]
    · have hex : ∃ x ∈ t, x.storable = false := by
        rcases h with ⟨x, hx, hxs⟩
        rcases List.mem_cons.mp hx with rfl | hxt
        · exact absurd hxs hr
        · exact ⟨x, hxt, hxs⟩
      simp only [insert_media_loop, if_neg hr]
      exact ih (journal ++ [r]) hex

theorem insert_media_loop_ok :
    ∀ (rest journal : List MediaRow),
      (∀ r ∈ rest, r.storable = true) →
      insert_media_loop rest journal = (journal ++ rest, none) := by
  intro rest
  induction rest with
  | nil => intro journal _; simp [insert_media_loop]
  | cons r t ih =>
    intro journal h
    have hr : ¬ (r.storable = false) := by
      simp [h r (List.mem_cons_self r t)]
    have ht : ∀ x ∈ t, x.storable = true :=
      fun x hx => h x (List.mem_cons_of_mem r hx)
    simp only [insert_media_loop, if_neg hr]
    rw [ih (journal ++ [r]) ht]
    simp

theorem insert_colors_loop_err :
    ∀ (rest journal : List ColorRow),
      (∃ r ∈ rest, r.storable = false) →
      (insert_colors_loop rest journal).2 = some bindError := by
  intro rest
  induction rest with
  | nil => intro journal h; simp at h
  | cons r t ih =>
    intro journal h
    by_cases hr : r.storable = false
    · simp [insert_colors_loop, hr]
    · have hex : ∃ x ∈ t, x.storable = false := by
        rcases h with ⟨x, hx, hxs⟩
        rcases List.mem_cons.mp hx with rfl | hxt
        · exact absurd hxs hr
        · exact ⟨x, hxt, hxs⟩
      simp only [insert_colors_loop, if_neg hr]
      exact ih (journal ++ [r]) hex

theorem insert_colors_loop_ok :
    ∀ (rest journal : List ColorRow),
      (∀ r ∈ rest, r.storable = true) →
      insert_colors_loop rest journal = (journal ++ rest, none) := by
  intro rest
  induction rest with
  | nil => intro journal _; simp [insert_colors_loop]
  | cons r t ih =>
    intro journal h
    have hr : ¬ (r.storable = false) := by
      simp [h r (List.mem_cons_self r t)]
    have ht : ∀ x ∈ t, x.storable = true :=
      fun x hx => h x (List.mem_cons_of_mem r hx)
    simp only [insert_colors_loop, if_neg hr]
    rw [ih (journal ++ [r]) ht]
    simp

/-- C9: each loader call commits its rows as one unit.  When every row
of the batch binds, the call commits without a store error (media and
colors commit exactly the whole batch appended); when some row has an
unbindable field, the store-level error propagates to the caller and
the committed table is unchanged, so no row of that call - in
particular none after the failing one - is inserted. -/
theorem loaders_transactional (ms : List MetadataRow) (mds : List MediaRow)
    (cs : List ColorRow) (tm : List MetadataRow) (tmd : List MediaRow)
    (tc : List ColorRow) :
    ((∀ r ∈ ms, r.storable = true) → (insert_metadata ms tm).2 = none) ∧
    ((∃ r ∈ ms, r.storable = false) →
      insert_metadata ms tm = (tm, some bindError)) ∧
    ((∀ r ∈ mds, r.storable = true) →
      insert_media mds tmd = (tmd ++ mds, none)) ∧
    ((∃ r ∈ mds, r.storable = false) →
      insert_media mds tmd = (tmd, some bindError)) ∧
    ((∀ r ∈ cs, r.storable = true) →
      insert_colors cs tc = (tc ++ cs, none)) ∧
    ((∃ r ∈ cs, r.storable = false) →
      insert_colors cs tc = (tc, some bindError)) := by
  refine ⟨?_, ?_, ?_, ?_, ?_, ?_⟩
  · intro hall
    have h2 := insert_metadata_loop_ok tm ms [] hall
    unfold insert_metadata
    rcases hloop : insert_metadata_loop tm ms [] with ⟨j, oe⟩
    rw [hloop] at h2
    simp only [] at h2
    subst h2
    simp
  · intro hex
    have h2 := insert_metadata_loop_err tm ms [] hex
    unfold insert_metadata
    rcases hloop : insert_metadata_loop tm ms [] with ⟨j, oe⟩
    rw [hloop] at h2
    simp only [] at h2
    subst h2
    simp
  · intro hall
    have h2 := insert_media_loop_ok mds [] hall
    unfold insert_media
    rw [h2]
    simp
  · intro hex
    have h2 := insert_media_loop_err mds [] hex
    unfold insert_media
    rcases hloop : insert_media_loop mds [] with ⟨j, oe⟩
    rw [hloop] at h2
    simp only [] at h2
    subst h2
    simp
  · intro hall
    have h2 := insert_colors_loop_ok cs [] hall
    unfold insert_colors
    rw [h2]
    simp
  · intro hex
    have h2 := insert_colors_loop_err cs [] hex
    unfold insert_colors
    rcases hloop : insert_colors_loop cs [] with ⟨j, oe⟩
    rw [hloop] at h2
    simp only [] at h2
    subst h2
    simp

/-- C10: for every input record, the media row produced by
`transform_records` carries an object id equal to the record's id, and
so does every color row produced from it; in particular the record with
id 42 and a two-entry color list transforms into exactly one metadata
row, one media row and two color rows, all carrying object id 42. -/
theorem transform_object_ids :
    (∀ rec : RawRecord, (mediaOf rec).objectid = rec.id ∧
      ∀ c ∈ colorRowsOf rec, c.objectid = rec.id) ∧
    ((transform_records [rec42]).1.length = 1 ∧
     (transform_records [rec42]).2.1.length = 1 ∧
     (transform_records [rec42]).2.2.length = 2 ∧
     (∀ m ∈ (transform_records [rec42]).1, m.id = Val.int 42) ∧
     (∀ m ∈ (transform_records [rec42]).2.1, m.objectid = Val.int 42) ∧
     (∀ c ∈ (transform_records [rec42]).2.2, c.objectid = Val.int 42)) := by
  constructor
  · intro rec
    refine ⟨rfl, ?_⟩
    intro c hc
    simp only [colorRowsOf, List.mem_map] at hc
    obtain ⟨e, _, rfl⟩ := hc
    rfl
  · refine ⟨rfl, rfl, rfl, ?_, ?_, ?_⟩ <;> decide

/-- Witness for C2 at a concrete two-page endpoint. -/
theorem fetch_record_bounds_witness :
    (fetch_artifacts_by_classification wpages 2).length ≤ 2 ∧
    fetch_artifacts_by_classification wpages 2 =
      (avail_records wpages).take 2 ∧
    min (avail_records wpages).length 2 ≤
      (fetch_artifacts_by_classification wpages 2).length :=
  ⟨(fetch_record_bounds wpages 2).1,
   ((fetch_record_bounds wpages 2).2 (by decide)).1,
   ((fetch_record_bounds wpages 2).2 (by decide)).2⟩

/-- Witness for C5 at a concrete two-page endpoint: the loop issues at
most two requests, stops at the no-next page, and stops after one page
once two records satisfy a `max_records` of two. -/
theorem fetch_termination_witness :
    fetch_request_count wpages 2 ≤ 2 ∧
    fetch_request_count wpages 2 ≤ 1 :=
  ⟨(fetch_termination wpages 2).2.1 1 (by decide) (by decide),
   (fetch_termination wpages 2).2.2 1 (by decide)⟩

/-- Witness for C6: the second page answers 503, so the fetch issues
exactly two requests and returns the first page's records. -/
theorem fetch_transport_error_partial_witness :
    fetch_request_count epages 5 = 2 ∧
    fetch_artifacts_by_classification epages 5 =
      ((epages.take 1).flatMap PageResp.records).take 5 :=
  fetch_transport_error_partial epages 1 5 (by decide) (by decide)
    (by decide) (by decide)

/-- Witness for C3 at a concrete row and the empty store. -/
theorem insert_metadata_idempotent_witness :
    ∃ t1,
      insert_metadata [mrow7] [] = (t1, none) ∧
      insert_metadata [mrow7] t1 = (t1, none) ∧
      (run_query_metadata_by_id t1 mrow7.id).length = 1 :=
  insert_metadata_idempotent mrow7 [] (by decide)
    (by simp [uniqueIds])

/-- Witness for C4 at concrete media and color rows. -/
theorem insert_media_colors_unconditional_witness :
    insert_media [mediaA] [] = ([] ++ [mediaA], none) ∧
    insert_media [mediaA] ([] ++ [mediaA]) =
      ([] ++ [mediaA] ++ [mediaA], none) ∧
    ([] ++ [mediaA] ++ [mediaA]).countP (fun x => decide (x = mediaA)) =
      ([] : List MediaRow).countP (fun x => decide (x = mediaA)) + 2 ∧
    insert_colors [colorA] [] = ([] ++ [colorA], none) ∧
    insert_colors [colorA] ([] ++ [colorA]) =
      ([] ++ [colorA] ++ [colorA], none) ∧
    ([] ++ [colorA] ++ [colorA]).countP (fun x => decide (x = colorA)) =
      ([] : List ColorRow).countP (fun x => decide (x = colorA)) + 2 :=
  insert_media_colors_unconditional mediaA colorA [] [] (by decide)
    (by decide)

/-- Witness for C8 at a concrete row and the empty store. -/
theorem insert_metadata_roundtrip_witness :
    insert_metadata [mrow7] [] = ([] ++ [mrow7], none) ∧
    run_query_metadata_by_id (insert_metadata [mrow7] []).1 mrow7.id =
      [mrow7] :=
  insert_metadata_roundtrip mrow7 [] (by decide) (by simp)

/-- Witness for C9: a storable batch commits for each loader, and a
batch holding an unbindable row propagates the error and leaves each
table unchanged. -/
theorem loaders_transactional_witness :
    (insert_metadata [mrow7] []).2 = none ∧
    insert_metadata [badMeta] [mrow7] = ([mrow7], some bindError) ∧
    insert_media [mediaA] [] = ([] ++ [mediaA], none) ∧
    insert_media [badMedia] [mediaA] = ([mediaA], some bindError) ∧
    insert_colors [colorA] [] = ([] ++ [colorA], none) ∧
    insert_colors [badColor] [colorA] = ([colorA], some bindError) :=
  ⟨(loaders_transactional [mrow7] [mediaA] [colorA] [] [] []).1
     (by decide),
   (loaders_transactional [badMeta] [mediaA] [colorA] [mrow7] [] []).2.1
     (by decide),
   (loaders_transactional [mrow7] [mediaA] [colorA] [] [] []).2.2.1
     (by decide),
   (loaders_transactional [mrow7] [badMedia] [colorA] [] [mediaA] []).2.2.2.1
     (by decide),
   (loaders_transactional [mrow7] [mediaA] [colorA] [] [] []).2.2.2.2.1
     (by decide),
   (loaders_transactional [mrow7] [mediaA] [badColor] [] [] [colorA]).2.2.2.2.2
     (by decide)⟩

/-- Witness for C10: the scenario record's media row and its first
color row both carry object id 42. -/
theorem transform_object_ids_witness :
    (mediaOf rec42).objectid = rec42.id ∧
    redRow42.objectid = rec42.id :=
  ⟨(transform_object_ids.1 rec42).1,
   (transform_object_ids.1 rec42).2 redRow42
     (by exact List.mem_cons_self _ _)⟩
